import Mathlib

/-!
# Verification of `t2t/models/contrastive_text_encoder_util.py`

A shallow embedding, in Lean 4, of the DeCLUTR utility module
`t2t/models/contrastive_text_encoder_util.py`, together with theorems settling
the specified properties of its three functions:

* `get_world_size` — queries `torch.distributed`, absorbing the
  uninitialized-runtime `AssertionError` into the sentinel `-1`;
* `sample_anchor_positive_pairs` — draws two distinct span indices with
  `random.sample(range(0, num_spans), 2)` and selects the corresponding span
  slices out of a `TextFieldTensors` nested mapping;
* `all_gather_anchor_positive_pairs` — in distributed training, all-gathers
  anchor/positive embedding batches across replicas, splicing the local
  (gradient-carrying) tensors back in at this replica's own rank index.

Tensors are embedded as nested lists of integers (`batch × … × value`); the
distributed runtime is embedded as an explicit environment `DistEnv` recording
whether `init_process_group` was called, this replica's rank, and the values
contributed by every rank in the collective.  Gradient history is embedded as a
provenance tag on each batch row (`GRow.grad`): the collective delivers rows
with the tag stripped (`none`), while locally produced rows keep their tag, so
"reference-identical, carrying its gradient history" is expressible.

A second, store-level embedding (`Heap`, suffix `_st`) tracks tensor storage
explicitly so that frame properties ("the call never writes to its input
tensors") can be stated: every torch operation the source uses is out-of-place
(it allocates fresh storage), except `dist.all_gather`, which writes only into
the freshly allocated receive buffers.
-/

/-- Python exceptions surfaced by the embedded code: `KeyError` from `dict`
subscription, `ValueError` from `random.sample`, and the `AssertionError`
raised by `torch.distributed.get_world_size` when the default process group
was never initialized. -/
inductive PyError where
  | keyError (key : String)
  | valueError (msg : String)
  | assertionError (msg : String)
deriving DecidableEq, Repr

/-- A 2-D tensor, `dim0 × dim1` (e.g. `batch × embedding_dim`). -/
abbrev Tensor2 := List (List Int)

/-- A 3-D tensor, `batch × num_spans × sequence_length`. -/
abbrev Tensor3 := List (List (List Int))

/-- `d[k]` on a Python `dict` embedded as an association list: the value at
the key, or `KeyError` if absent. -/
def dictGet (d : List (String × α)) (k : String) : Except PyError α :=
  match d.lookup k with
  | some v => .ok v
  | none => .error (.keyError k)

/-- `TextFieldTensors`: field name ("tokens") to sub-field name
("token_ids", "mask", "type_ids") to tensor. -/
abbrev TFT (α : Type) := List (String × List (String × α))

/-- The distributed runtime (`torch.distributed`) as seen by this replica:
`world = some w` iff `init_process_group` was called with world size `w`;
`rank` is this replica's rank; `peerAnchors`/`peerPositives` are the values
each rank (this one included) contributes to the two collectives, one
`batch × embedding_dim` block per rank in rank order. -/
structure DistEnv where
  world : Option Nat
  rank : Nat
  peerAnchors : List Tensor2
  peerPositives : List Tensor2

/-- `torch.distributed.get_world_size()`: the world size, or an
`AssertionError` if the default process group was never initialized. -/
def dist_get_world_size (env : DistEnv) : Except PyError Nat :=
  match env.world with
  | some w => .ok w
  | none => .error (.assertionError "Default process group is not initialized")

/-- Source `get_world_size` (lines 10–16): returns `dist.get_world_size()`,
or `-1` if that raises `AssertionError` (process group never initialized). -/
def get_world_size (env : DistEnv) : Int :=
  match dist_get_world_size env with
  | .ok w => (w : Int)
  | .error _ => -1

/-- CPython's `random.sample(range(0, n), 2)` (selection sampling from a
pool): draws `j1` uniform on `[0, n)` and `j2` uniform on `[0, n-1)`, takes
`pool[j1]`, moves the last pool element into slot `j1`, then takes `pool[j2]`.
Raises `ValueError` when the sample size 2 exceeds the population size `n`.
The two uniform draws are passed in as entropy `r1`, `r2` (reduced mod the
respective ranges). -/
def random_sample_range_2 (n : Nat) (r1 r2 : Nat) : Except PyError (List Nat) :=
  if n < 2 then .error (.valueError "Sample larger than population or is negative")
  else
    let pool := List.range n
    let j1 := r1 % n
    let x1 := pool.getD j1 0
    let pool2 := pool.set j1 (pool.getD (n - 1) 0)
    let j2 := r2 % (n - 1)
    let x2 := pool2.getD j2 0
    .ok [x1, x2]

/-- `t.size(1)` of a `batch × num_spans × len` tensor: the span count (read
off the first batch element in the nested-list embedding). -/
def size1 (t : Tensor3) : Nat := (t.headD []).length

/-- `torch.index_select(t, dim=1, index=index)`: for every batch element,
pick out the spans listed in `index`. -/
def index_select1 (t : Tensor3) (index : List Nat) : Tensor3 :=
  t.map (fun ex => index.map (fun i => ex.getD i []))

/-- `torch.chunk(t, 2, dim=1)` for a tensor whose dim-1 size is 2 (the only
shape at which the source calls it): the two `batch × 1 × len` halves. -/
def chunk2_dim1 (t : Tensor3) : Tensor3 × Tensor3 :=
  (t.map (fun ex => ex.take 1), t.map (fun ex => ex.drop 1))

/-- `t.squeeze(1)` for a `batch × 1 × len` tensor: drop the singleton span
dimension. -/
def squeeze1 (t : Tensor3) : Tensor2 :=
  t.map (fun ex => ex.headD [])

/-- Source `sample_anchor_positive_pairs` (lines 19–62): compute
`num_spans = tokens["tokens"]["token_ids"].size(1)`, draw
`index = random.sample(range(0, num_spans), 2)`, `index_select` the two spans
out of `token_ids`, `mask` and `type_ids`, `chunk` each result into the anchor
half (first drawn span) and positive half (second drawn span), squeeze away
the span dimension, and repackage into two `TextFieldTensors`.  Entropy for
the draw is passed in as `r1`, `r2`; dictionary lookups happen in source
order (`token_ids` before the draw, `mask` and `type_ids` after). -/
def sample_anchor_positive_pairs (tokens : TFT Tensor3) (r1 r2 : Nat) :
    Except PyError (TFT Tensor2 × TFT Tensor2) := do
  let tok ← dictGet tokens "tokens"
  let token_ids ← dictGet tok "token_ids"
  let num_spans := size1 token_ids
  let index ← random_sample_range_2 num_spans r1 r2
  let random_token_ids := index_select1 token_ids index
  let mask ← dictGet tok "mask"
  let random_masks := index_select1 mask index
  let type_ids ← dictGet tok "type_ids"
  let random_type_ids := index_select1 type_ids index
  let (anchor_token_ids, positive_token_ids) := chunk2_dim1 random_token_ids
  let (anchor_masks, positive_masks) := chunk2_dim1 random_masks
  let (anchor_type_ids, positive_type_ids) := chunk2_dim1 random_type_ids
  let anchors : TFT Tensor2 :=
    [("tokens",
      [("token_ids", squeeze1 anchor_token_ids),
       ("mask", squeeze1 anchor_masks),
       ("type_ids", squeeze1 anchor_type_ids)])]
  let positives : TFT Tensor2 :=
    [("tokens",
      [("token_ids", squeeze1 positive_token_ids),
       ("mask", squeeze1 positive_masks),
       ("type_ids", squeeze1 positive_type_ids)])]
  return (anchors, positives)

/-- One batch row of an embedding tensor: its values along the embedding
dimension, plus a gradient-history provenance tag (`some id` = this row
carries gradient history back to source `id`; `none` = detached, as rows
received through `dist.all_gather` are). -/
structure GRow where
  data : List Int
  grad : Option Nat
deriving DecidableEq, Repr

/-- An embedding tensor (`batch × embedding_dim`) with per-row gradient
provenance. -/
abbrev GTensor := List GRow

/-- `torch.ones_like(t)`: a fresh tensor of ones with `t`'s shape and no
gradient history. -/
def ones_like (t : GTensor) : GTensor :=
  t.map (fun r => ⟨r.data.map (fun _ => 1), none⟩)

/-- A rank's contribution as it arrives out of `dist.all_gather`: the values,
stripped of gradient history. -/
def detach (t : Tensor2) : GTensor :=
  t.map (fun row => ⟨row, none⟩)

/-- `dist.all_gather(buffers, src)`: overwrite the `i`-th receive buffer with
rank `i`'s contribution, gradient history stripped.  (`contribs` lists every
rank's contribution in rank order; the collective requires one buffer per
rank.) -/
def dist_all_gather (buffers : List GTensor) (contribs : List Tensor2) :
    List GTensor :=
  (buffers.zip contribs).map (fun bc => detach bc.2)

/-- Source `all_gather_anchor_positive_pairs` (lines 65–105): if the world
size is under 2 this is a no-op returning its inputs; otherwise allocate one
`ones_like` receive buffer per rank for anchors and for positives, all-gather
into them, overwrite the buffer at this replica's own rank index with the
original local tensor (the one with gradient history), and concatenate the
per-rank blocks along the batch dimension. -/
def all_gather_anchor_positive_pairs (env : DistEnv)
    (anchors positives : GTensor) : Except PyError (GTensor × GTensor) :=
  if get_world_size env < 2 then .ok (anchors, positives)
  else
    match env.world with
    | none =>
      -- unreachable: `dist.get_world_size()` would raise here, but
      -- `get_world_size env < 2` already holds when the runtime is down
      .error (.assertionError "Default process group is not initialized")
    | some w =>
      let anchors_list := (List.range w).map (fun _ => ones_like anchors)
      let positives_list := (List.range w).map (fun _ => ones_like positives)
      let anchors_list := dist_all_gather anchors_list env.peerAnchors
      let positives_list := dist_all_gather positives_list env.peerPositives
      let anchors_list := anchors_list.set env.rank anchors
      let positives_list := positives_list.set env.rank positives
      .ok (anchors_list.flatten, positives_list.flatten)

/-- Selecting span `i` from every batch element of a 3-D tensor (the net
effect on one sub-field tensor of `index_select` with a singleton index,
followed by `squeeze(1)`). -/
def selectSpan (t : Tensor3) (i : Nat) : Tensor2 :=
  t.map (fun ex => ex.getD i [])

/-- Whether an embedded call ended in a `KeyError`. -/
def isKeyError (r : Except PyError α) : Bool :=
  match r with
  | .error (.keyError _) => true
  | _ => false

/-- The storage positions `(batch, half, element)` of the elements viewed by
the `k`-th of the two views `torch.chunk(buf, 2, dim=1)` returns into their
shared `batch × 2 × len` buffer (views which `squeeze(1)` re-views without
adding elements): anchors are the `k = 0` view, positives the `k = 1` view.
Sharing the buffer is harmless exactly because the two position sets are
disjoint. -/
def chunkViewPositions (k batch len : Nat) : List (Nat × Nat × Nat) :=
  ((List.range batch).map (fun b => (List.range len).map (fun s => (b, k, s)))).flatten

/-! ### Store-level embedding (for frame properties)

Tensor storage made explicit: a `Heap` of tensor values, tensors referred to
by index into it.  Every torch operation the source sampler uses
(`as_tensor`, `index_select`, `chunk`, `squeeze`) is out-of-place: it reads
existing entries and appends fresh ones.  `dist.all_gather` is the one
operation that writes into existing entries — the receive buffers passed to
it. -/

/-- A tensor value in storage (1-D index tensors, 2-D embeddings, 3-D token
fields). -/
inductive TorchVal where
  | tv1 (v : List Nat)
  | tv2 (v : Tensor2)
  | tv3 (v : Tensor3)
deriving DecidableEq, Repr

/-- Tensor storage; a tensor reference is an index into it. -/
abbrev Heap := List TorchVal

/-- Allocate fresh storage holding `v`; returns the new reference. -/
def halloc (v : TorchVal) (h : Heap) : Nat × Heap :=
  (h.length, h ++ [v])

/-- Read a 1-D tensor out of storage. -/
def readT1 (h : Heap) (r : Nat) : List Nat :=
  match h.getD r (.tv1 []) with
  | .tv1 v => v
  | _ => []

/-- Read a 2-D tensor out of storage. -/
def readT2 (h : Heap) (r : Nat) : Tensor2 :=
  match h.getD r (.tv2 []) with
  | .tv2 v => v
  | _ => []

/-- Read a 3-D tensor out of storage. -/
def readT3 (h : Heap) (r : Nat) : Tensor3 :=
  match h.getD r (.tv3 []) with
  | .tv3 v => v
  | _ => []

/-- Store-level `sample_anchor_positive_pairs`: the same source lines as the
value-level embedding, with each tensor operation made a `Heap` operation so
that what the call does to existing storage is visible.  Every operation
allocates (`halloc`); none writes to an existing entry. -/
def sample_anchor_positive_pairs_st (tokens : TFT Nat) (r1 r2 : Nat) (h : Heap) :
    Except PyError (TFT Nat × TFT Nat) × Heap :=
  match tokens.lookup "tokens" with
  | none => (.error (.keyError "tokens"), h)
  | some tok =>
  match tok.lookup "token_ids" with
  | none => (.error (.keyError "token_ids"), h)
  | some tidRef =>
  match random_sample_range_2 (size1 (readT3 h tidRef)) r1 r2 with
  | .error e => (.error e, h)
  | .ok index =>
  let p0 := halloc (.tv1 index) h
  let h0 := p0.2
  let p1 := halloc (.tv3 (index_select1 (readT3 h0 tidRef) (readT1 h0 p0.1))) h0
  let h1 := p1.2
  match tok.lookup "mask" with
  | none => (.error (.keyError "mask"), h1)
  | some maskRef =>
  let p2 := halloc (.tv3 (index_select1 (readT3 h1 maskRef) (readT1 h1 p0.1))) h1
  let h2 := p2.2
  match tok.lookup "type_ids" with
  | none => (.error (.keyError "type_ids"), h2)
  | some tyRef =>
  let p3 := halloc (.tv3 (index_select1 (readT3 h2 tyRef) (readT1 h2 p0.1))) h2
  let h3 := p3.2
  let q1 := halloc (.tv3 (chunk2_dim1 (readT3 h3 p1.1)).1) h3
  let q2 := halloc (.tv3 (chunk2_dim1 (readT3 q1.2 p1.1)).2) q1.2
  let q3 := halloc (.tv3 (chunk2_dim1 (readT3 q2.2 p2.1)).1) q2.2
  let q4 := halloc (.tv3 (chunk2_dim1 (readT3 q3.2 p2.1)).2) q3.2
  let q5 := halloc (.tv3 (chunk2_dim1 (readT3 q4.2 p3.1)).1) q4.2
  let q6 := halloc (.tv3 (chunk2_dim1 (readT3 q5.2 p3.1)).2) q5.2
  let s1 := halloc (.tv2 (squeeze1 (readT3 q6.2 q1.1))) q6.2
  let s2 := halloc (.tv2 (squeeze1 (readT3 s1.2 q2.1))) s1.2
  let s3 := halloc (.tv2 (squeeze1 (readT3 s2.2 q3.1))) s2.2
  let s4 := halloc (.tv2 (squeeze1 (readT3 s3.2 q4.1))) s3.2
  let s5 := halloc (.tv2 (squeeze1 (readT3 s4.2 q5.1))) s4.2
  let s6 := halloc (.tv2 (squeeze1 (readT3 s5.2 q6.1))) s5.2
  (.ok ([("tokens", [("token_ids", s1.1), ("mask", s3.1), ("type_ids", s5.1)])],
        [("tokens", [("token_ids", s2.1), ("mask", s4.1), ("type_ids", s6.1)])]),
   s6.2)

/-- Store-level `torch.ones_like` for a 2-D tensor value. -/
def ones_like2 (t : Tensor2) : Tensor2 :=
  t.map (fun row => row.map (fun _ => 1))

/-- Store-level `dist.all_gather(buffers, src)`: write rank `i`'s
contribution into the storage entry of the `i`-th receive buffer. -/
def st_all_gather (bufs : List Nat) (contribs : List Tensor2) (h : Heap) : Heap :=
  (bufs.zip contribs).foldl (fun hh bc => hh.set bc.1 (.tv2 bc.2)) h

/-- Store-level `torch.cat`: read the listed tensors and allocate their
concatenation along the batch dimension. -/
def st_cat (refs : List Nat) (h : Heap) : Nat × Heap :=
  halloc (.tv2 (refs.map (readT2 h)).flatten) h

/-- Store-level `all_gather_anchor_positive_pairs`: the same source lines as
the value-level embedding, with tensor storage explicit.  The receive
buffers are freshly allocated (`ones_like`); `dist.all_gather` writes only
into those buffers; the own-rank overwrite replaces a Python list element
(a reference), touching no storage; `torch.cat` allocates the results. -/
def all_gather_anchor_positive_pairs_st (env : DistEnv) (ra rp : Nat) (h : Heap) :
    (Nat × Nat) × Heap :=
  if get_world_size env < 2 then ((ra, rp), h)
  else
    match env.world with
    | none => ((ra, rp), h)  -- unreachable: world size < 2 when uninitialized
    | some w =>
      let anchorBufs := (List.range w).map (fun k => h.length + k)
      let h1 := h ++ (List.range w).map (fun _ => .tv2 (ones_like2 (readT2 h ra)))
      let positiveBufs := (List.range w).map (fun k => h1.length + k)
      let h2 := h1 ++ (List.range w).map (fun _ => .tv2 (ones_like2 (readT2 h1 rp)))
      let h3 := st_all_gather anchorBufs env.peerAnchors h2
      let h4 := st_all_gather positiveBufs env.peerPositives h3
      let anchorRefs := anchorBufs.set env.rank ra
      let positiveRefs := positiveBufs.set env.rank rp
      let (raOut, h5) := st_cat anchorRefs h4
      let (rpOut, h6) := st_cat positiveRefs h5
      ((raOut, rpOut), h6)

/-! ## Helper lemmas -/

theorem getD_set_ne {α : Type} (l : List α) (i j : Nat) (v d : α) (h : i ≠ j) :
    (l.set i v).getD j d = l.getD j d := by
  unfold List.getD
  rw [List.get?_set_ne v l h]

theorem getD_append_left {α : Type} (l l' : List α) (i : Nat) (d : α)
    (h : i < l.length) :
    (l ++ l').getD i d = l.getD i d := by
  unfold List.getD
  rw [List.get?_append h]

theorem zip_map_snd {α β γ : Type} (l1 : List α) (l2 : List β) (f : β → γ)
    (h : l1.length = l2.length) :
    (l1.zip l2).map (fun bc => f bc.2) = l2.map f := by
  induction l2 generalizing l1 with
  | nil => simp
  | cons b bs ih =>
    cases l1 with
    | nil => simp at h
    | cons a as =>
      simp only [List.length_cons, Nat.succ.injEq] at h
      simp [List.zip_cons_cons, ih as h]

theorem gather_noop_of_lt (env : DistEnv) (anchors positives : GTensor)
    (h : get_world_size env < 2) :
    all_gather_anchor_positive_pairs env anchors positives = .ok (anchors, positives) := by
  unfold all_gather_anchor_positive_pairs
  simp [h]

theorem get_world_size_of_none (env : DistEnv) (h : env.world = none) :
    get_world_size env = -1 := by
  unfold get_world_size dist_get_world_size
  rw [h]

theorem dist_all_gather_bufs (w : Nat) (f : Nat → GTensor) (contribs : List Tensor2)
    (h : contribs.length = w) :
    dist_all_gather ((List.range w).map f) contribs = contribs.map detach := by
  unfold dist_all_gather
  exact zip_map_snd _ _ _ (by simp [h])

theorem set_map_detach_eq_range_map (contribs : List Tensor2) (w r : Nat) (a : GTensor)
    (hw : contribs.length = w) (hr : r < w) :
    (contribs.map detach).set r a
      = (List.range w).map (fun i => if i = r then a else detach (contribs.getD i [])) := by
  apply List.ext_getElem
  · simp [hw]
  · intro i h1 h2
    simp only [List.length_set, List.length_map, hw] at h1
    rw [List.getElem_set]
    simp only [List.getElem_map, List.getElem_range]
    by_cases hir : r = i
    · simp [hir]
    · rw [if_neg hir, if_neg (fun hh => hir hh.symm)]
      congr 1
      rw [List.getD_eq_getElem contribs [] (by omega)]

theorem range_map_eq_replicate {α : Type} (w : Nat) (B : α) (g : Nat → α)
    (hg : ∀ i < w, g i = B) :
    (List.range w).map g = List.replicate w B := by
  apply List.ext_getElem
  · simp
  · intro i h1 h2
    simp only [List.getElem_map, List.getElem_range, List.getElem_replicate]
    exact hg i (by simpa using h1)

theorem flatten_range_map_length (w B : Nat) (g : Nat → GTensor)
    (hg : ∀ i < w, (g i).length = B) :
    ((List.range w).map g).flatten.length = w * B := by
  rw [List.length_flatten, List.map_map]
  rw [range_map_eq_replicate w B (List.length ∘ g) hg]
  rw [List.sum_replicate]
  simp

theorem mem_flatten_range_map {α : Type} (g : Nat → List α) (w : Nat) (r : α)
    (h : r ∈ ((List.range w).map g).flatten) : ∃ i < w, r ∈ g i := by
  rw [List.mem_flatten] at h
  obtain ⟨l, hl, hr⟩ := h
  simp only [List.mem_map, List.mem_range] at hl
  obtain ⟨i, hi, rfl⟩ := hl
  exact ⟨i, hi, hr⟩

theorem flatten_slice {α : Type} (L : List (List α)) (B i : Nat)
    (hB : ∀ t ∈ L, t.length = B) (hi : i < L.length) :
    (L.flatten.drop (i * B)).take B = L[i] := by
  induction L generalizing i with
  | nil => simp at hi
  | cons t rest ih =>
    cases i with
    | zero =>
      have ht : t.length = B := hB t (by simp)
      simp only [Nat.zero_mul, List.drop_zero, List.flatten_cons, List.getElem_cons_zero]
      rw [← ht, List.take_left]
    | succ k =>
      have ht : t.length = B := hB t (by simp)
      simp only [List.flatten_cons, List.getElem_cons_succ]
      have harith : (k + 1) * B = t.length + k * B := by rw [ht]; ring
      rw [harith, List.drop_append]
      exact ih k (fun u hu => hB u (by simp [hu])) (by simpa using hi)

/-! ## Claims about the Cross-Replica Gatherer (value level) -/

/-- C2: if the world size is less than 2 (including the never-initialized
case), `all_gather_anchor_positive_pairs` returns exactly the two tensors it
was given — same values and same gradient-history tags, no copy. -/
theorem all_gather_noop_below_two (env : DistEnv) (anchors positives : GTensor)
    (h : get_world_size env < 2) :
    all_gather_anchor_positive_pairs env anchors positives = .ok (anchors, positives) :=
  gather_noop_of_lt env anchors positives h

theorem all_gather_noop_below_two_witness :
    get_world_size ⟨some 1, 0, [], []⟩ < 2 ∧
    all_gather_anchor_positive_pairs ⟨some 1, 0, [], []⟩
        [⟨[3, 4], some 0⟩] [⟨[5, 6], some 1⟩]
      = .ok ([⟨[3, 4], some 0⟩], [⟨[5, 6], some 1⟩]) :=
  ⟨by decide, all_gather_noop_below_two _ _ _ (by decide)⟩

/-- C6: when the distributed runtime was never initialized, the raw
world-size query fails with an `AssertionError`, but
`all_gather_anchor_positive_pairs` absorbs it: it returns normally through
the no-op path instead of surfacing an error. -/
theorem all_gather_absorbs_uninitialized (env : DistEnv)
    (anchors positives : GTensor) (h : env.world = none) :
    dist_get_world_size env
        = .error (.assertionError "Default process group is not initialized") ∧
    all_gather_anchor_positive_pairs env anchors positives = .ok (anchors, positives) := by
  constructor
  · unfold dist_get_world_size
    rw [h]
  · exact gather_noop_of_lt env anchors positives (by rw [get_world_size_of_none env h]; decide)

theorem all_gather_absorbs_uninitialized_witness :
    (⟨none, 0, [], []⟩ : DistEnv).world = none ∧
    dist_get_world_size ⟨none, 0, [], []⟩
        = .error (.assertionError "Default process group is not initialized") ∧
    all_gather_anchor_positive_pairs ⟨none, 0, [], []⟩ [⟨[7], some 2⟩] [⟨[8], none⟩]
      = .ok ([⟨[7], some 2⟩], [⟨[8], none⟩]) :=
  ⟨rfl, all_gather_absorbs_uninitialized _ [⟨[7], some 2⟩] [⟨[8], none⟩] rfl⟩

/-- C8: with the runtime never initialized, `get_world_size` returns the
sentinel `-1` (in particular not `1`); `-1 < 2`, so the Gatherer reaches the
no-op path through the sentinel. -/
theorem get_world_size_sentinel (env : DistEnv) (anchors positives : GTensor)
    (h : env.world = none) :
    get_world_size env = -1 ∧
    get_world_size env ≠ 1 ∧
    get_world_size env < 2 ∧
    all_gather_anchor_positive_pairs env anchors positives = .ok (anchors, positives) := by
  have h1 : get_world_size env = -1 := get_world_size_of_none env h
  refine ⟨h1, by rw [h1]; decide, by rw [h1]; decide, ?_⟩
  exact gather_noop_of_lt env anchors positives (by rw [h1]; decide)

theorem get_world_size_sentinel_witness :
    (⟨none, 3, [[[1]]], []⟩ : DistEnv).world = none ∧
    (get_world_size ⟨none, 3, [[[1]]], []⟩ = -1 ∧
     get_world_size ⟨none, 3, [[[1]]], []⟩ ≠ 1 ∧
     get_world_size ⟨none, 3, [[[1]]], []⟩ < 2 ∧
     all_gather_anchor_positive_pairs ⟨none, 3, [[[1]]], []⟩ [⟨[9], none⟩] [⟨[10], some 4⟩]
       = .ok ([⟨[9], none⟩], [⟨[10], some 4⟩])) :=
  ⟨rfl, get_world_size_sentinel _ [⟨[9], none⟩] [⟨[10], some 4⟩] rfl⟩

theorem gather_part_length (contribs : List Tensor2) (t : GTensor) (w r B : Nat)
    (hc : contribs.length = w) (ht : t.length = B)
    (hcB : ∀ u ∈ contribs, u.length = B) :
    ((List.range w).map
      (fun i => if i = r then t else detach (contribs.getD i []))).flatten.length
      = w * B := by
  apply flatten_range_map_length
  intro i hi
  by_cases h : i = r
  · simp [h, ht]
  · simp only [if_neg h, detach, List.length_map]
    rw [List.getD_eq_getElem contribs [] (by omega)]
    exact hcB _ (List.getElem_mem _)

theorem gather_part_slice (contribs : List Tensor2) (t : GTensor) (w r B : Nat)
    (hc : contribs.length = w) (hr : r < w) (ht : t.length = B)
    (hcB : ∀ u ∈ contribs, u.length = B) :
    ((((List.range w).map
      (fun i => if i = r then t else detach (contribs.getD i []))).flatten.drop (r * B)).take B)
      = t := by
  have hmem : ∀ u ∈ (List.range w).map
      (fun i => if i = r then t else detach (contribs.getD i [])), u.length = B := by
    intro u hu
    simp only [List.mem_map, List.mem_range] at hu
    obtain ⟨i, hi, rfl⟩ := hu
    by_cases h : i = r
    · simp [h, ht]
    · simp only [if_neg h, detach, List.length_map]
      rw [List.getD_eq_getElem contribs [] (by omega)]
      exact hcB _ (List.getElem_mem _)
  rw [flatten_slice _ B r hmem (by simpa using hr)]
  simp

theorem gather_part_dim (contribs : List Tensor2) (t : GTensor) (w r B dim : Nat)
    (hc : contribs.length = w)
    (htd : ∀ x ∈ t, x.data.length = dim)
    (hcd : ∀ u ∈ contribs, ∀ row ∈ u, row.length = dim) :
    ∀ x ∈ ((List.range w).map
      (fun i => if i = r then t else detach (contribs.getD i []))).flatten,
      x.data.length = dim := by
  intro x hx
  obtain ⟨i, hi, hxm⟩ := mem_flatten_range_map _ w x hx
  by_cases h : i = r
  · rw [if_pos h] at hxm
    exact htd x hxm
  · rw [if_neg h] at hxm
    simp only [detach, List.mem_map] at hxm
    obtain ⟨row, hrow, rfl⟩ := hxm
    have : contribs.getD i [] ∈ contribs := by
      rw [List.getD_eq_getElem contribs [] (by omega)]
      exact List.getElem_mem _
    exact hcd _ this row hrow

/-- C1: in the multi-replica path (world size `w ≥ 2`), the gather returns,
for anchors and for positives alike, the concatenation in ascending rank
order of one `batch × embedding_dim` block per rank — shape `(w*B) × dim` —
where the block at this replica's own rank index is the original local input
(same rows, gradient-history tags intact) and every other block holds the
corresponding peer's gathered values, detached from gradient history. -/
theorem all_gather_multi_replica (env : DistEnv) (anchors positives : GTensor)
    (w B dim : Nat)
    (hw : env.world = some w) (h2 : 2 ≤ w) (hr : env.rank < w)
    (hpa : env.peerAnchors.length = w) (hpp : env.peerPositives.length = w)
    (haB : anchors.length = B) (hpB : positives.length = B)
    (hpaB : ∀ t ∈ env.peerAnchors, t.length = B)
    (hppB : ∀ t ∈ env.peerPositives, t.length = B)
    (hadim : ∀ x ∈ anchors, x.data.length = dim)
    (hpdim : ∀ x ∈ positives, x.data.length = dim)
    (hpadim : ∀ t ∈ env.peerAnchors, ∀ row ∈ t, row.length = dim)
    (hppdim : ∀ t ∈ env.peerPositives, ∀ row ∈ t, row.length = dim) :
    ∃ A P,
      all_gather_anchor_positive_pairs env anchors positives = .ok (A, P) ∧
      A = ((List.range w).map (fun i => if i = env.rank then anchors
            else detach (env.peerAnchors.getD i []))).flatten ∧
      P = ((List.range w).map (fun i => if i = env.rank then positives
            else detach (env.peerPositives.getD i []))).flatten ∧
      A.length = w * B ∧ P.length = w * B ∧
      (A.drop (env.rank * B)).take B = anchors ∧
      (P.drop (env.rank * B)).take B = positives ∧
      (∀ x ∈ A, x.data.length = dim) ∧ (∀ x ∈ P, x.data.length = dim) := by
  have hgw : get_world_size env = (w : Int) := by
    unfold get_world_size dist_get_world_size
    rw [hw]
  have hnlt : ¬ (get_world_size env < 2) := by
    rw [hgw, Int.not_lt]
    exact_mod_cast h2
  refine ⟨_, _, ?_, rfl, rfl, ?_, ?_, ?_, ?_, ?_, ?_⟩
  · unfold all_gather_anchor_positive_pairs
    rw [if_neg hnlt]
    simp only [hw]
    rw [dist_all_gather_bufs w _ env.peerAnchors hpa,
        dist_all_gather_bufs w _ env.peerPositives hpp,
        set_map_detach_eq_range_map env.peerAnchors w env.rank anchors hpa hr,
        set_map_detach_eq_range_map env.peerPositives w env.rank positives hpp hr]
  · exact gather_part_length env.peerAnchors anchors w env.rank B hpa haB hpaB
  · exact gather_part_length env.peerPositives positives w env.rank B hpp hpB hppB
  · exact gather_part_slice env.peerAnchors anchors w env.rank B hpa hr haB hpaB
  · exact gather_part_slice env.peerPositives positives w env.rank B hpp hr hpB hppB
  · exact gather_part_dim env.peerAnchors anchors w env.rank B dim hpa hadim hpadim
  · exact gather_part_dim env.peerPositives positives w env.rank B dim hpp hpdim hppdim

theorem all_gather_multi_replica_witness :
    ∃ A P,
      all_gather_anchor_positive_pairs
          ⟨some 2, 0, [[[10], [11]], [[20], [21]]], [[[30], [31]], [[40], [41]]]⟩
          [⟨[10], some 100⟩, ⟨[11], some 101⟩] [⟨[30], some 200⟩, ⟨[31], some 201⟩]
        = .ok (A, P) ∧
      A = ((List.range 2).map (fun i => if i = 0 then [⟨[10], some 100⟩, ⟨[11], some 101⟩]
            else detach ([[[10], [11]], [[20], [21]]].getD i []))).flatten ∧
      P = ((List.range 2).map (fun i => if i = 0 then [⟨[30], some 200⟩, ⟨[31], some 201⟩]
            else detach ([[[30], [31]], [[40], [41]]].getD i []))).flatten ∧
      A.length = 2 * 2 ∧ P.length = 2 * 2 ∧
      (A.drop (0 * 2)).take 2 = [⟨[10], some 100⟩, ⟨[11], some 101⟩] ∧
      (P.drop (0 * 2)).take 2 = [⟨[30], some 200⟩, ⟨[31], some 201⟩] ∧
      (∀ x ∈ A, x.data.length = 1) ∧ (∀ x ∈ P, x.data.length = 1) :=
  all_gather_multi_replica
    ⟨some 2, 0, [[[10], [11]], [[20], [21]]], [[[30], [31]], [[40], [41]]]⟩
    [⟨[10], some 100⟩, ⟨[11], some 101⟩] [⟨[30], some 200⟩, ⟨[31], some 201⟩]
    2 2 1 rfl (by decide) (by decide) (by decide) (by decide) (by decide) (by decide)
    (by decide) (by decide) (by decide) (by decide) (by decide) (by decide)

/-! ## The span draw: closed form, distinctness, range, uniformity -/

theorem random_sample_range_2_closed_form (n r1 r2 : Nat) (h2 : 2 ≤ n) :
    random_sample_range_2 n r1 r2
      = .ok [r1 % n, if r2 % (n - 1) = r1 % n then n - 1 else r2 % (n - 1)] := by
  unfold random_sample_range_2
  rw [if_neg (by omega)]
  have hj1 : r1 % n < n := Nat.mod_lt _ (by omega)
  have hj2 : r2 % (n - 1) < n - 1 := Nat.mod_lt _ (by omega)
  have hx1 : (List.range n).getD (r1 % n) 0 = r1 % n := by
    rw [List.getD_eq_getElem _ _ (by simpa using hj1)]
    simp
  have hlast : (List.range n).getD (n - 1) 0 = n - 1 := by
    rw [List.getD_eq_getElem _ _ (by simp; omega)]
    simp
  simp only [hx1, hlast]
  congr 1
  congr 1
  by_cases he : r2 % (n - 1) = r1 % n
  · rw [he, if_pos rfl]
    rw [List.getD_eq_getElem _ _ (by simp; omega)]
    rw [List.getElem_set]
    simp
  · rw [if_neg he, getD_set_ne _ _ _ _ _ (fun hh => he hh.symm)]
    rw [List.getD_eq_getElem _ _ (by simp; omega)]
    simp

theorem random_sample_range_2_distinct_mem (n r1 r2 : Nat) (h2 : 2 ≤ n) :
    ∃ i j, random_sample_range_2 n r1 r2 = .ok [i, j] ∧
      i < n ∧ j < n ∧ i ≠ j := by
  refine ⟨r1 % n, if r2 % (n - 1) = r1 % n then n - 1 else r2 % (n - 1),
    random_sample_range_2_closed_form n r1 r2 h2, Nat.mod_lt _ (by omega), ?_, ?_⟩
  · have hj2 : r2 % (n - 1) < n - 1 := Nat.mod_lt _ (by omega)
    by_cases he : r2 % (n - 1) = r1 % n
    · rw [if_pos he]; omega
    · rw [if_neg he]; omega
  · have hj1 : r1 % n < n := Nat.mod_lt _ (by omega)
    have hj2 : r2 % (n - 1) < n - 1 := Nat.mod_lt _ (by omega)
    by_cases he : r2 % (n - 1) = r1 % n
    · rw [if_pos he]; omega
    · rw [if_neg he]; omega

theorem random_sample_range_2_uniform (n : Nat) (h2 : 2 ≤ n) (a b : Nat)
    (ha : a < n) (hb : b < n) (hab : a ≠ b) :
    ∃! r : Nat × Nat, r.1 < n ∧ r.2 < n - 1 ∧
      random_sample_range_2 n r.1 r.2 = .ok [a, b] := by
  refine ⟨(a, if b = n - 1 then a else b), ⟨ha, ?_, ?_⟩, ?_⟩
  · by_cases hbn : b = n - 1
    · rw [if_pos hbn]; omega
    · rw [if_neg hbn]; omega
  · rw [random_sample_range_2_closed_form n _ _ h2]
    by_cases hbn : b = n - 1
    · rw [if_pos hbn]
      have h1 : a % n = a := Nat.mod_eq_of_lt ha
      have h2' : a % (n - 1) = a := Nat.mod_eq_of_lt (by omega)
      rw [h1, h2', if_pos rfl, hbn]
    · rw [if_neg hbn]
      have h1 : a % n = a := Nat.mod_eq_of_lt ha
      have h2' : b % (n - 1) = b := Nat.mod_eq_of_lt (by omega)
      rw [h1, h2', if_neg hab.symm]
  · rintro ⟨s1, s2⟩ ⟨hs1, hs2, hok⟩
    rw [random_sample_range_2_closed_form n _ _ h2] at hok
    have h1 : s1 % n = s1 := Nat.mod_eq_of_lt hs1
    have h2' : s2 % (n - 1) = s2 := Nat.mod_eq_of_lt hs2
    rw [h1, h2'] at hok
    simp only [Except.ok.injEq, List.cons.injEq, and_true] at hok
    obtain ⟨hs1a, hx2⟩ := hok
    simp only [Prod.mk.injEq]
    refine ⟨hs1a, ?_⟩
    by_cases he : s2 = s1
    · rw [if_pos he] at hx2
      rw [if_pos hx2.symm]
      omega
    · rw [if_neg he] at hx2
      rw [if_neg (by omega)]
      exact hx2

/-! ## The Span Sampler: evaluation lemmas and claims -/

theorem squeeze_take_select (t : Tensor3) (i j : Nat) :
    squeeze1 ((index_select1 t [i, j]).map (fun ex => ex.take 1)) = selectSpan t i := by
  unfold squeeze1 index_select1 selectSpan
  simp only [List.map_map]
  rfl

theorem squeeze_drop_select (t : Tensor3) (i j : Nat) :
    squeeze1 ((index_select1 t [i, j]).map (fun ex => ex.drop 1)) = selectSpan t j := by
  unfold squeeze1 index_select1 selectSpan
  simp only [List.map_map]
  rfl

/-- The success path of the sampler, as a function of the drawn index pair:
anchors take span `i` (the first drawn index), positives span `j` (the
second), the same pair in every sub-field tensor and every batch element. -/
theorem sample_eval (tokens : TFT Tensor3) (tok : List (String × Tensor3))
    (tid mask tids : Tensor3) (r1 r2 i j : Nat)
    (h1 : tokens.lookup "tokens" = some tok)
    (h2 : tok.lookup "token_ids" = some tid)
    (h3 : tok.lookup "mask" = some mask)
    (h4 : tok.lookup "type_ids" = some tids)
    (hidx : random_sample_range_2 (size1 tid) r1 r2 = .ok [i, j]) :
    sample_anchor_positive_pairs tokens r1 r2 = .ok
      ([("tokens",
          [("token_ids", selectSpan tid i),
           ("mask", selectSpan mask i),
           ("type_ids", selectSpan tids i)])],
       [("tokens",
          [("token_ids", selectSpan tid j),
           ("mask", selectSpan mask j),
           ("type_ids", selectSpan tids j)])]) := by
  simp only [sample_anchor_positive_pairs, dictGet, h1, h2, h3, h4, hidx,
    Bind.bind, Except.bind, Pure.pure, Except.pure, chunk2_dim1,
    squeeze_take_select, squeeze_drop_select]

/-- C3: with fewer than 2 candidate spans along dimension 1, the sampler
fails with the `ValueError` raised by `random.sample` (the insufficient-spans
precondition violation) instead of returning a result. -/
theorem sampler_insufficient_spans (tokens : TFT Tensor3)
    (tok : List (String × Tensor3)) (tid : Tensor3) (r1 r2 : Nat)
    (h1 : tokens.lookup "tokens" = some tok)
    (h2 : tok.lookup "token_ids" = some tid)
    (hlt : size1 tid < 2) :
    sample_anchor_positive_pairs tokens r1 r2
      = .error (.valueError "Sample larger than population or is negative") := by
  simp only [sample_anchor_positive_pairs, dictGet, h1, h2,
    random_sample_range_2, if_pos hlt, Bind.bind, Except.bind]

theorem sampler_insufficient_spans_witness :
    ([("tokens", [("token_ids", [[[1]]])])] : TFT Tensor3).lookup "tokens"
        = some [("token_ids", [[[1]]])] ∧
    ([("token_ids", [[[1]]])] : List (String × Tensor3)).lookup "token_ids"
        = some [[[1]]] ∧
    size1 [[[1]]] < 2 ∧
    sample_anchor_positive_pairs [("tokens", [("token_ids", [[[1]]])])] 0 1
      = .error (.valueError "Sample larger than population or is negative") :=
  ⟨by decide, by decide, by decide,
    sampler_insufficient_spans [("tokens", [("token_ids", [[[1]]])])]
      [("token_ids", [[[1]]])] [[[1]]] 0 1 (by decide) (by decide) (by decide)⟩

/-- C4: with `n ≥ 2` spans the sampler draws one pair of distinct indices,
both in `[0, n)`, and selects with that single shared pair in every sub-field
tensor and every batch element (all anchors take span `i`, all positives span
`j` — per call, not per example or per field); and the draw is uniform
without replacement: every ordered distinct pair is produced by exactly one
point of the entropy space `[0, n) × [0, n-1)`. -/
theorem sampler_draw_shared_uniform (tokens : TFT Tensor3)
    (tok : List (String × Tensor3)) (tid mask tids : Tensor3) (r1 r2 n : Nat)
    (h1 : tokens.lookup "tokens" = some tok)
    (h2 : tok.lookup "token_ids" = some tid)
    (h3 : tok.lookup "mask" = some mask)
    (h4 : tok.lookup "type_ids" = some tids)
    (hn : size1 tid = n) (h2n : 2 ≤ n) :
    (∃ i j, i < n ∧ j < n ∧ i ≠ j ∧
      sample_anchor_positive_pairs tokens r1 r2 = .ok
        ([("tokens",
            [("token_ids", selectSpan tid i),
             ("mask", selectSpan mask i),
             ("type_ids", selectSpan tids i)])],
         [("tokens",
            [("token_ids", selectSpan tid j),
             ("mask", selectSpan mask j),
             ("type_ids", selectSpan tids j)])])) ∧
    (∀ a b, a < n → b < n → a ≠ b →
      ∃! r : Nat × Nat, r.1 < n ∧ r.2 < n - 1 ∧
        random_sample_range_2 n r.1 r.2 = .ok [a, b]) := by
  constructor
  · subst hn
    obtain ⟨i, j, hok, hi, hj, hij⟩ :=
      random_sample_range_2_distinct_mem (size1 tid) r1 r2 h2n
    exact ⟨i, j, hi, hj, hij,
      sample_eval tokens tok tid mask tids r1 r2 i j h1 h2 h3 h4 hok⟩
  · exact fun a b ha hb hab => random_sample_range_2_uniform n h2n a b ha hb hab

theorem sampler_draw_shared_uniform_witness :
    size1 [[[1], [2]]] = 2 ∧ 2 ≤ 2 ∧
    ((∃ i j, i < 2 ∧ j < 2 ∧ i ≠ j ∧
      sample_anchor_positive_pairs
          [("tokens", [("token_ids", [[[1], [2]]]),
                       ("mask", [[[1], [0]]]),
                       ("type_ids", [[[0], [0]]])])] 0 0 = .ok
        ([("tokens",
            [("token_ids", selectSpan [[[1], [2]]] i),
             ("mask", selectSpan [[[1], [0]]] i),
             ("type_ids", selectSpan [[[0], [0]]] i)])],
         [("tokens",
            [("token_ids", selectSpan [[[1], [2]]] j),
             ("mask", selectSpan [[[1], [0]]] j),
             ("type_ids", selectSpan [[[0], [0]]] j)])])) ∧
    (∀ a b, a < 2 → b < 2 → a ≠ b →
      ∃! r : Nat × Nat, r.1 < 2 ∧ r.2 < 2 - 1 ∧
        random_sample_range_2 2 r.1 r.2 = .ok [a, b])) :=
  ⟨by decide, by decide,
    sampler_draw_shared_uniform _
      [("token_ids", [[[1], [2]]]), ("mask", [[[1], [0]]]), ("type_ids", [[[0], [0]]])]
      [[[1], [2]]] [[[1], [0]]] [[[0], [0]]] 0 0 2
      (by decide) (by decide) (by decide) (by decide) (by decide) (by decide)⟩

/-- C5: on valid input the two outputs are structurally identical
`TextFieldTensors` — one field "tokens" with sub-fields "token_ids", "mask",
"type_ids" — each sub-field a 2-D tensor (the span dimension removed, each
batch element reduced to one selected span) with the input's batch size; and
the two `chunk` views through which anchors and positives are produced cover
disjoint position sets of their shared buffer, so an in-place mutation of one
cannot alter the other. -/
theorem sampler_output_structure (tokens : TFT Tensor3)
    (tok : List (String × Tensor3)) (tid mask tids : Tensor3) (r1 r2 n B : Nat)
    (h1 : tokens.lookup "tokens" = some tok)
    (h2 : tok.lookup "token_ids" = some tid)
    (h3 : tok.lookup "mask" = some mask)
    (h4 : tok.lookup "type_ids" = some tids)
    (hn : size1 tid = n) (h2n : 2 ≤ n)
    (hB1 : tid.length = B) (hB2 : mask.length = B) (hB3 : tids.length = B) :
    (∃ i j, i ≠ j ∧
      sample_anchor_positive_pairs tokens r1 r2 = .ok
        ([("tokens",
            [("token_ids", selectSpan tid i),
             ("mask", selectSpan mask i),
             ("type_ids", selectSpan tids i)])],
         [("tokens",
            [("token_ids", selectSpan tid j),
             ("mask", selectSpan mask j),
             ("type_ids", selectSpan tids j)])]) ∧
      (selectSpan tid i).length = B ∧ (selectSpan mask i).length = B ∧
      (selectSpan tids i).length = B ∧ (selectSpan tid j).length = B ∧
      (selectSpan mask j).length = B ∧ (selectSpan tids j).length = B) ∧
    (∀ L x, x ∈ chunkViewPositions 0 B L → x ∉ chunkViewPositions 1 B L) := by
  constructor
  · subst hn
    obtain ⟨i, j, hok, hi, hj, hij⟩ :=
      random_sample_range_2_distinct_mem (size1 tid) r1 r2 h2n
    refine ⟨i, j, hij,
      sample_eval tokens tok tid mask tids r1 r2 i j h1 h2 h3 h4 hok, ?_, ?_, ?_, ?_, ?_, ?_⟩
    all_goals simp [selectSpan, hB1, hB2, hB3]
  · intro L x hx hy
    unfold chunkViewPositions at hx hy
    rw [List.mem_flatten] at hx hy
    obtain ⟨l0, hl0, hx0⟩ := hx
    obtain ⟨l1, hl1, hx1⟩ := hy
    simp only [List.mem_map, List.mem_range] at hl0 hl1
    obtain ⟨b0, _, rfl⟩ := hl0
    obtain ⟨b1, _, rfl⟩ := hl1
    simp only [List.mem_map, List.mem_range] at hx0 hx1
    obtain ⟨s0, _, rfl⟩ := hx0
    obtain ⟨s1, _, heq⟩ := hx1
    simp at heq

theorem sampler_output_structure_witness :
    size1 [[[1], [2]]] = 2 ∧ 2 ≤ 2 ∧
    ((∃ i j, i ≠ j ∧
      sample_anchor_positive_pairs
          [("tokens", [("token_ids", [[[1], [2]]]),
                       ("mask", [[[1], [0]]]),
                       ("type_ids", [[[0], [0]]])])] 1 0 = .ok
        ([("tokens",
            [("token_ids", selectSpan [[[1], [2]]] i),
             ("mask", selectSpan [[[1], [0]]] i),
             ("type_ids", selectSpan [[[0], [0]]] i)])],
         [("tokens",
            [("token_ids", selectSpan [[[1], [2]]] j),
             ("mask", selectSpan [[[1], [0]]] j),
             ("type_ids", selectSpan [[[0], [0]]] j)])]) ∧
      (selectSpan [[[1], [2]]] i).length = 1 ∧ (selectSpan [[[1], [0]]] i).length = 1 ∧
      (selectSpan [[[0], [0]]] i).length = 1 ∧ (selectSpan [[[1], [2]]] j).length = 1 ∧
      (selectSpan [[[1], [0]]] j).length = 1 ∧ (selectSpan [[[0], [0]]] j).length = 1) ∧
    (∀ L x, x ∈ chunkViewPositions 0 1 L → x ∉ chunkViewPositions 1 1 L)) :=
  ⟨by decide, by decide,
    sampler_output_structure _
      [("token_ids", [[[1], [2]]]), ("mask", [[[1], [0]]]), ("type_ids", [[[0], [0]]])]
      [[[1], [2]]] [[[1], [0]]] [[[0], [0]]] 1 0 2 1
      (by decide) (by decide) (by decide) (by decide) (by decide) (by decide)
      (by decide) (by decide) (by decide)⟩

/-! ## What the sampler reads (C10) -/

theorem sample_success_shape (tokens : TFT Tensor3) (r1 r2 : Nat) (A P : TFT Tensor2)
    (hok : sample_anchor_positive_pairs tokens r1 r2 = .ok (A, P)) :
    ∃ t1 t2 t3 u1 u2 u3,
      A = [("tokens", [("token_ids", t1), ("mask", t2), ("type_ids", t3)])] ∧
      P = [("tokens", [("token_ids", u1), ("mask", u2), ("type_ids", u3)])] := by
  unfold sample_anchor_positive_pairs dictGet at hok
  cases h1 : tokens.lookup "tokens" with
  | none => rw [h1] at hok; simp [Bind.bind, Except.bind] at hok
  | some tok =>
  rw [h1] at hok
  simp only [Bind.bind, Except.bind] at hok
  cases h2 : tok.lookup "token_ids" with
  | none => rw [h2] at hok; simp at hok
  | some tid =>
  rw [h2] at hok
  simp only at hok
  cases h5 : random_sample_range_2 (size1 tid) r1 r2 with
  | error e => rw [h5] at hok; simp at hok
  | ok idx =>
  rw [h5] at hok
  simp only at hok
  cases h3 : tok.lookup "mask" with
  | none => rw [h3] at hok; simp at hok
  | some mask =>
  rw [h3] at hok
  simp only at hok
  cases h4 : tok.lookup "type_ids" with
  | none => rw [h4] at hok; simp at hok
  | some tids =>
  rw [h4] at hok
  simp only [chunk2_dim1, Pure.pure, Except.pure, Except.ok.injEq, Prod.mk.injEq] at hok
  exact ⟨_, _, _, _, _, _, hok.1.symm, hok.2.symm⟩

/-- C10 counterexample: with the "mask" sub-field absent but only one
candidate span, the call fails with the insufficient-spans `ValueError`, not
with a key-lookup error — `random.sample` runs before the "mask" lookup. -/
theorem sampler_reads_cex :
    sample_anchor_positive_pairs [("tokens", [("token_ids", [[[0]]])])] 0 0
      = .error (.valueError "Sample larger than population or is negative") ∧
    isKeyError (sample_anchor_positive_pairs [("tokens", [("token_ids", [[[0]]])])] 0 0)
      = false :=
  ⟨rfl, rfl⟩

/-- C10 (amended): the sampler reads exactly the sub-fields
`tokens.token_ids`, `tokens.mask`, `tokens.type_ids`.  A missing "tokens" or
"token_ids" key always fails with a key-lookup error; a missing "mask" or
"type_ids" key fails with a key-lookup error provided the span count read
off `token_ids` is at least 2 (with fewer spans the insufficient-spans
`ValueError` fires first, since the draw happens before those lookups); and
any successful result carries exactly the field "tokens" with exactly the
sub-fields "token_ids", "mask", "type_ids" — additional input fields or
sub-fields are absent from both outputs. -/
theorem sampler_reads_exactly (tokens : TFT Tensor3) (r1 r2 : Nat) :
    (tokens.lookup "tokens" = none →
      sample_anchor_positive_pairs tokens r1 r2 = .error (.keyError "tokens")) ∧
    (∀ tok, tokens.lookup "tokens" = some tok →
      tok.lookup "token_ids" = none →
      sample_anchor_positive_pairs tokens r1 r2 = .error (.keyError "token_ids")) ∧
    (∀ tok tid, tokens.lookup "tokens" = some tok →
      tok.lookup "token_ids" = some tid → 2 ≤ size1 tid →
      tok.lookup "mask" = none →
      sample_anchor_positive_pairs tokens r1 r2 = .error (.keyError "mask")) ∧
    (∀ tok tid mask, tokens.lookup "tokens" = some tok →
      tok.lookup "token_ids" = some tid → 2 ≤ size1 tid →
      tok.lookup "mask" = some mask → tok.lookup "type_ids" = none →
      sample_anchor_positive_pairs tokens r1 r2 = .error (.keyError "type_ids")) ∧
    (∀ A P, sample_anchor_positive_pairs tokens r1 r2 = .ok (A, P) →
      A.map Prod.fst = ["tokens"] ∧ P.map Prod.fst = ["tokens"] ∧
      (∀ inner ∈ A.map Prod.snd, inner.map Prod.fst = ["token_ids", "mask", "type_ids"]) ∧
      (∀ inner ∈ P.map Prod.snd, inner.map Prod.fst = ["token_ids", "mask", "type_ids"])) := by
  refine ⟨?_, ?_, ?_, ?_, ?_⟩
  · intro h1
    simp only [sample_anchor_positive_pairs, dictGet, h1, Bind.bind, Except.bind]
  · intro tok h1 h2
    simp only [sample_anchor_positive_pairs, dictGet, h1, h2, Bind.bind, Except.bind]
  · intro tok tid h1 h2 hge h3
    simp only [sample_anchor_positive_pairs, dictGet, h1, h2, h3,
      random_sample_range_2_closed_form (size1 tid) r1 r2 hge, Bind.bind, Except.bind]
  · intro tok tid mask h1 h2 hge h3 h4
    simp only [sample_anchor_positive_pairs, dictGet, h1, h2, h3, h4,
      random_sample_range_2_closed_form (size1 tid) r1 r2 hge, Bind.bind, Except.bind]
  · intro A P hok
    obtain ⟨t1, t2, t3, u1, u2, u3, rfl, rfl⟩ := sample_success_shape tokens r1 r2 A P hok
    refine ⟨rfl, rfl, ?_, ?_⟩ <;>
    · intro inner hinner
      simp only [List.map_cons, List.map_nil, List.mem_cons, List.not_mem_nil,
        or_false] at hinner
      simp [hinner]

theorem sampler_reads_exactly_witness :
    sample_anchor_positive_pairs ([] : TFT Tensor3) 0 0 = .error (.keyError "tokens") ∧
    sample_anchor_positive_pairs [("tokens", [("token_ids", [[[1], [2]]])])] 0 0
      = .error (.keyError "mask") :=
  ⟨(sampler_reads_exactly [] 0 0).1 (by decide),
   (sampler_reads_exactly [("tokens", [("token_ids", [[[1], [2]]])])] 0 0).2.2.1
      [("token_ids", [[[1], [2]]])] [[[1], [2]]]
      (by decide) (by decide) (by decide) (by decide)⟩

/-! ## Frame properties (store level) -/

set_option maxHeartbeats 1600000 in
/-- C7: the sampler never writes to existing tensor storage: for every input,
entropy and initial heap, the heap after the call is the initial heap plus
freshly allocated entries only, so every input sub-field tensor holds exactly
the values it held before; the explicit entropy arguments are the only other
effect of the call. -/
theorem sampler_frame (tokens : TFT Nat) (r1 r2 : Nat) (h : Heap) :
    ∃ ext, (sample_anchor_positive_pairs_st tokens r1 r2 h).2 = h ++ ext := by
  unfold sample_anchor_positive_pairs_st halloc
  repeat' split
  all_goals dsimp only
  all_goals
    first
    | exact ⟨[], (List.append_nil _).symm⟩
    | (simp only [List.append_assoc]; exact ⟨_, rfl⟩)

theorem foldl_set_get?_ne (l : List (Nat × Tensor2)) (h : Heap) (t : Nat)
    (hne : ∀ x ∈ l, x.1 ≠ t) :
    (l.foldl (fun hh bc => hh.set bc.1 (.tv2 bc.2)) h).get? t = h.get? t := by
  induction l generalizing h with
  | nil => rfl
  | cons x xs ih =>
    rw [List.foldl_cons, ih _ (fun y hy => hne y (List.mem_cons_of_mem x hy))]
    exact List.get?_set_ne _ _ (hne x (List.mem_cons_self x xs))

theorem foldl_set_length (l : List (Nat × Tensor2)) (h : Heap) :
    (l.foldl (fun hh bc => hh.set bc.1 (.tv2 bc.2)) h).length = h.length := by
  induction l generalizing h with
  | nil => rfl
  | cons x xs ih => rw [List.foldl_cons, ih, List.length_set]

theorem st_all_gather_get?_ne (bufs : List Nat) (contribs : List Tensor2) (h : Heap)
    (t : Nat) (hne : ∀ b ∈ bufs, b ≠ t) :
    (st_all_gather bufs contribs h).get? t = h.get? t := by
  unfold st_all_gather
  refine foldl_set_get?_ne _ _ _ (fun x hx => ?_)
  exact hne x.1 (List.mem_zip hx).1

theorem st_all_gather_length (bufs : List Nat) (contribs : List Tensor2) (h : Heap) :
    (st_all_gather bufs contribs h).length = h.length :=
  foldl_set_length _ _

/-- C9: in the multi-replica path `all_gather_anchor_positive_pairs` never
writes to its input tensors: the receive buffers are freshly allocated, the
collective populates only those buffers, the own-rank overwrite replaces a
Python-list element rather than mutating storage, and `cat` allocates — so
the storage entries of both inputs hold exactly their original values after
the call (the no-op path trivially preserves them too). -/
theorem all_gather_frame (env : DistEnv) (ra rp : Nat) (h : Heap)
    (hra : ra < h.length) (hrp : rp < h.length) :
    ((all_gather_anchor_positive_pairs_st env ra rp h).2).get? ra = h.get? ra ∧
    ((all_gather_anchor_positive_pairs_st env ra rp h).2).get? rp = h.get? rp := by
  unfold all_gather_anchor_positive_pairs_st st_cat halloc
  by_cases hlt : get_world_size env < 2
  · rw [if_pos hlt]
    exact ⟨rfl, rfl⟩
  · rw [if_neg hlt]
    cases hw : env.world with
    | none => exact ⟨rfl, rfl⟩
    | some w =>
      have key : ∀ t, t < h.length →
          ((st_all_gather ((List.range w).map (fun k =>
              (h ++ (List.range w).map (fun _ =>
                TorchVal.tv2 (ones_like2 (readT2 h ra)))).length + k))
            env.peerPositives
            (st_all_gather ((List.range w).map (fun k => h.length + k))
              env.peerAnchors
              ((h ++ (List.range w).map (fun _ =>
                  TorchVal.tv2 (ones_like2 (readT2 h ra)))) ++
                (List.range w).map (fun _ =>
                  TorchVal.tv2 (ones_like2 (readT2
                    (h ++ (List.range w).map (fun _ =>
                      TorchVal.tv2 (ones_like2 (readT2 h ra)))) rp)))))).get? t)
            = h.get? t := by
        intro t ht
        rw [st_all_gather_get?_ne _ _ _ t ?hpos, st_all_gather_get?_ne _ _ _ t ?hanc,
            List.get?_append ?hlen1, List.get?_append ht]
        case hpos =>
          intro b hb
          simp only [List.mem_map, List.mem_range, List.length_append,
            List.length_map, List.length_range] at hb
          obtain ⟨k, _, rfl⟩ := hb
          omega
        case hanc =>
          intro b hb
          simp only [List.mem_map, List.mem_range] at hb
          obtain ⟨k, _, rfl⟩ := hb
          omega
        case hlen1 =>
          simp only [List.length_append, List.length_map, List.length_range]
          omega
      constructor
      · rw [List.get?_append, List.get?_append, key ra hra]
        · rw [st_all_gather_length, st_all_gather_length]
          simp only [List.length_append, List.length_map, List.length_range]
          omega
        · rw [List.length_append, List.length_singleton, st_all_gather_length,
              st_all_gather_length]
          simp only [List.length_append, List.length_map, List.length_range]
          omega
      · rw [List.get?_append, List.get?_append, key rp hrp]
        · rw [st_all_gather_length, st_all_gather_length]
          simp only [List.length_append, List.length_map, List.length_range]
          omega
        · rw [List.length_append, List.length_singleton, st_all_gather_length,
              st_all_gather_length]
          simp only [List.length_append, List.length_map, List.length_range]
          omega

theorem all_gather_frame_witness :
    0 < ([.tv2 [[5]], .tv2 [[6]]] : Heap).length ∧
    1 < ([.tv2 [[5]], .tv2 [[6]]] : Heap).length ∧
    (((all_gather_anchor_positive_pairs_st ⟨some 2, 0, [[[5]], [[7]]], [[[6]], [[8]]]⟩
        0 1 [.tv2 [[5]], .tv2 [[6]]]).2).get? 0
      = ([.tv2 [[5]], .tv2 [[6]]] : Heap).get? 0 ∧
     ((all_gather_anchor_positive_pairs_st ⟨some 2, 0, [[[5]], [[7]]], [[[6]], [[8]]]⟩
        0 1 [.tv2 [[5]], .tv2 [[6]]]).2).get? 1
      = ([.tv2 [[5]], .tv2 [[6]]] : Heap).get? 1) :=
  ⟨by decide, by decide,
    all_gather_frame ⟨some 2, 0, [[[5]], [[7]]], [[[6]], [[8]]]⟩ 0 1
      [.tv2 [[5]], .tv2 [[6]]] (by decide) (by decide)⟩
